import Mathlib

/-!
Verification development for the ai-medical-diagnosis repository.

The Python sources `app.py` and `inference.py` are shallowly embedded below.
Machine floats are modelled exactly: a Python float is either NaN, a signed
infinity, or a finite value modelled as a rational number.  All thresholds
appearing in the code (0.75, 0.5) and all test inputs are exactly
representable, so the rational model agrees with IEEE double comparison
results on every value used in a theorem.
-/

/-- A Python float: NaN, a signed infinity, or a finite value (modelled
exactly as a rational). -/
inductive PFloat
  | nan
  | inf (pos : Bool)
  | fin (q : ℚ)
deriving DecidableEq, Repr

/-- Python `x >= c` for a float `x` and a finite constant `c`: every
comparison with NaN is false; `inf >= c` is true, `-inf >= c` is false. -/
def pfGe : PFloat → ℚ → Bool
  | .nan, _ => false
  | .inf pos, _ => pos
  | .fin q, c => decide (c ≤ q)

/-- `map_probability` from app.py lines 181-190:
`if prob >= 0.75: return "Pneumonia Detected"`
`elif prob >= 0.5: return "Possible Pneumonia (Moderate)"`
`else: return "Normal"`. -/
def map_probability (prob : PFloat) : String :=
  if pfGe prob 0.75 then "Pneumonia Detected"
  else if pfGe prob 0.5 then "Possible Pneumonia (Moderate)"
  else "Normal"

/-- A pixel grid: a list of rows. -/
abbrev Grid (α : Type) := List (List α)

/-- A decoded PIL image in one of the channel modes the spec mentions:
grayscale (L), RGBA, palette (P) or RGB.  Channel values are bytes, held as
naturals. -/
inductive PILImage
  | L (px : Grid Nat)
  | RGBA (px : Grid (Nat × Nat × Nat × Nat))
  | P (palette : List (Nat × Nat × Nat)) (px : Grid Nat)
  | RGB (px : Grid (Nat × Nat × Nat))
deriving DecidableEq, Repr

/-- All channel values (including palette entries) of the image are bytes. -/
def validPILImage : PILImage → Bool
  | .L px => px.all (fun row => row.all (fun v => decide (v < 256)))
  | .RGBA px => px.all (fun row => row.all
      (fun p => decide (p.1 < 256) && decide (p.2.1 < 256) && decide (p.2.2.1 < 256)))
  | .P palette _ => palette.all
      (fun p => decide (p.1 < 256) && decide (p.2.1 < 256) && decide (p.2.2 < 256))
  | .RGB px => px.all (fun row => row.all
      (fun p => decide (p.1 < 256) && decide (p.2.1 < 256) && decide (p.2.2 < 256)))

/-- PIL `image.convert("RGB")`: grayscale replicates the value into the three
channels, RGBA drops the alpha channel, palette mode looks each index up in
the palette (out-of-range indices read as black), RGB is the identity. -/
def convertRGB : PILImage → Grid (Nat × Nat × Nat)
  | .L px => px.map (fun row => row.map (fun v => (v, v, v)))
  | .RGBA px => px.map (fun row => row.map (fun p => (p.1, p.2.1, p.2.2.1)))
  | .P palette px => px.map (fun row => row.map (fun i => palette.getD i (0, 0, 0)))
  | .RGB px => px

/-- `IMG_SIZE = (224, 224)` from app.py line 21 and inference.py line 7. -/
def IMG_SIZE : Nat × Nat := (224, 224)

/-- PIL `image.resize(IMG_SIZE)`: produces a newW x newH grid whose pixels
are sampled from the source grid.  Resampling is modelled as
nearest-neighbour sampling; every PIL resampling filter writes byte-valued
pixels, and the claims proved below depend only on the output shape and on
the fact that every output pixel is a source pixel or a byte default. -/
def resizeNN (g : Grid (Nat × Nat × Nat)) (newW newH : Nat) : Grid (Nat × Nat × Nat) :=
  let h := g.length
  let w := (g.headD []).length
  (List.range newH).map (fun y =>
    (List.range newW).map (fun x =>
      (g.getD (y * h / newH) []).getD (x * w / newW) (0, 0, 0)))

/-- `np.array(image) / 255.0`: each byte channel becomes an exact rational
in [0, 1]. -/
def normalize255 (g : Grid (Nat × Nat × Nat)) : Grid (ℚ × ℚ × ℚ) :=
  g.map (fun row => row.map
    (fun p => ((p.1 : ℚ) / 255, (p.2.1 : ℚ) / 255, (p.2.2 : ℚ) / 255)))

/-- The tensor computed inside `preprocess_image` (app.py lines 151-154):
convert to RGB, resize to IMG_SIZE, divide by 255.0, and
`np.expand_dims(img_array, axis=0)` prepends the batch dimension. -/
def preprocess_tensor (image : PILImage) : List (Grid (ℚ × ℚ × ℚ)) :=
  let rgb := convertRGB image
  let resized := resizeNN rgb IMG_SIZE.1 IMG_SIZE.2
  let img_array := normalize255 resized
  [img_array]

/-- A JSON value.  Object fields are an association list in insertion order;
`json.loads` keeps the last occurrence of a duplicated key. -/
inductive Json
  | null
  | bool (b : Bool)
  | num (q : ℚ)
  | str (s : String)
  | arr (elems : List Json)
  | obj (fields : List (String × Json))

/-- `json.dumps(img_array.tolist())` at the structural level: the nested
numeric JSON array for a (1, H, W, 3) tensor. -/
def tensorToJson (t : List (Grid (ℚ × ℚ × ℚ))) : Json :=
  .arr (t.map (fun plane => .arr (plane.map (fun row => .arr (row.map
    (fun p => .arr [.num p.1, .num p.2.1, .num p.2.2]))))))

/-- `preprocess_image` from app.py lines 146-155: the serialized payload is
the JSON rendering of the preprocessed tensor (then UTF-8 encoded on the
wire). -/
def preprocess_image (image : PILImage) : Json :=
  tensorToJson (preprocess_tensor image)

/-- `_preprocess` from inference.py lines 14-19: decode, convert to RGB,
resize to IMG_SIZE, divide by 255.0, expand the batch dimension.  The input
is the decoded image (`Image.open` on the raw bytes). -/
def _preprocess (image_bytes : PILImage) : List (Grid (ℚ × ℚ × ℚ)) :=
  let img := convertRGB image_bytes
  let resized := resizeNN img IMG_SIZE.1 IMG_SIZE.2
  let arr := normalize255 resized
  [arr]

/-- Python `s.startswith(p)` on the character lists of the two strings. -/
def strStarts : List Char → List Char → Bool
  | _, [] => true
  | [], _ :: _ => false
  | c :: cs, p :: ps => c == p && strStarts cs ps

/-- `input_fn` from inference.py lines 21-24: accept the request when the
content type starts with "image/" or equals "application/x-image", else
raise `ValueError("Unsupported content type: " + content_type)`. -/
def input_fn (request_body : PILImage) (content_type : String) :
    Except String (List (Grid (ℚ × ℚ × ℚ))) :=
  if strStarts content_type.toList "image/".toList
      || content_type == "application/x-image" then
    .ok (_preprocess request_body)
  else
    .error ("Unsupported content type: " ++ content_type)

/-- Python `str.split()` with no argument over a character list: split on
runs of whitespace, dropping empty pieces; `acc` holds the characters of the
word in progress, reversed. -/
def pySplitAux (acc : List Char) : List Char → List String
  | [] => if acc = [] then [] else [String.mk acc.reverse]
  | c :: cs =>
      if c.isWhitespace then
        if acc = [] then pySplitAux [] cs
        else String.mk acc.reverse :: pySplitAux [] cs
      else pySplitAux (c :: acc) cs

/-- Python `str.split()` with no argument: split on runs of whitespace and
drop empty pieces. -/
def pySplit (s : String) : List String :=
  pySplitAux [] s.toList

/-- The wrapping loop of `build_pdf_report` (app.py lines 117-124): `line`
is the line under construction; a word that would push the line past
`max_chars = 90` (`len(line) + len(word) + 1 > max_chars`) flushes the
current line and starts a new one, otherwise it is appended after a space
(no space when the line is empty).  Returns the flushed lines and the final
`line`. -/
def wrapLoop (line : String) : List String → List String × String
  | [] => ([], line)
  | w :: rest =>
      if line.length + w.length + 1 > 90 then
        let r := wrapLoop w rest
        (line :: r.1, r.2)
      else
        wrapLoop (line ++ (if line = "" then "" else " ") ++ w) rest

/-- `wrapped` as built by app.py lines 116-126: run the loop from an empty
line, then `if line: wrapped.append(line)`. -/
def wrapWords (ws : List String) : List String :=
  let r := wrapLoop "" ws
  if r.2 = "" then r.1 else r.1 ++ [r.2]

/-- The wrapped note lines for a notes string: `(notes or "").split()`
fed to the wrapping loop. -/
def wrapNotes (notes : String) : List String :=
  wrapWords (pySplit notes)

/-- The exact A4 page height used by reportlab: 297 mm in points,
297 * 72 / 25.4. -/
def A4height : ℚ := 106920 / 127

/-- The vertical cursor when the first wrapped note line is drawn, following
the fixed decrements of app.py lines 76-114: height - 50, then -30, -40,
-18, -18, -30, -18, -18, -30, -18. -/
def notesStartY : ℚ :=
  A4height - 50 - 30 - 40 - 18 - 18 - 30 - 18 - 18 - 30 - 18

/-- The note-drawing loop of app.py lines 128-134.  For each line it records
the vertical position `y` at which the line is drawn and whether a page
break follows; then `y -= 14`, and `if y < 60` a new page is started and
`y = height - 60`.  Returns the drawn (position, page-break) pairs and the
final cursor. -/
def notesLoop (y : ℚ) : List String → List (ℚ × Bool) × ℚ
  | [] => ([], y)
  | _ :: rest =>
      let y1 := y - 14
      let brk : Bool := decide (y1 < 60)
      let y2 := if brk then A4height - 60 else y1
      let r := notesLoop y2 rest
      ((y, brk) :: r.1, r.2)

/-- The patient/study line of app.py line 95:
`f"Patient / Study ID: {patient_id or 'N/A'}"`; Python `or` takes the right
operand exactly when the string is empty. -/
def patientLine (patient_id : String) : String :=
  "Patient / Study ID: " ++ (if patient_id = "" then "N/A" else patient_id)

/-- Python subscripting `value["key"]` on a decoded JSON value: a dict looks
the key up (last duplicate wins, missing key raises KeyError; a string key
is never present in a JSON-decoded dict only when absent); indexing a dict
that lacks the key, and subscripting any non-container, raise.  Error
strings name the Python exception class. -/
def jsonGetField : Json → String → Except String Json
  | .obj kvs, k =>
      match (kvs.filter (fun kv => kv.1 == k)).getLast? with
      | some kv => .ok kv.2
      | none => .error "KeyError"
  | .arr _, _ => .error "TypeError"
  | _, _ => .error "TypeError"

/-- Python subscripting `value[i]` for a natural index on a decoded JSON
value: lists index positionally (IndexError past the end), strings index to
a one-character string, dicts raise KeyError for an integer key (JSON keys
are strings), everything else raises TypeError. -/
def jsonGetIndex : Json → Nat → Except String Json
  | .arr xs, i =>
      match xs.get? i with
      | some v => .ok v
      | none => .error "IndexError"
  | .str s, i =>
      match s.toList.get? i with
      | some ch => .ok (.str (String.singleton ch))
      | none => .error "IndexError"
  | .obj _, _ => .error "KeyError"
  | _, _ => .error "TypeError"

/-- Consume leading decimal digits: accumulated value, digit count, rest. -/
def takeDigitsAux (acc n : Nat) : List Char → Nat × Nat × List Char
  | [] => (acc, n, [])
  | c :: cs =>
      if c.isDigit then takeDigitsAux (acc * 10 + (c.toNat - 48)) (n + 1) cs
      else (acc, n, c :: cs)

/-- Parse an unsigned decimal mantissa `digits [. digits]` (at least one
digit overall), returning its exact rational value and the rest. -/
def parseUnsigned (cs : List Char) : Option (ℚ × List Char) :=
  let r1 := takeDigitsAux 0 0 cs
  match r1.2.2 with
  | '.' :: r2 =>
      let r3 := takeDigitsAux 0 0 r2
      if r1.2.1 = 0 ∧ r3.2.1 = 0 then none
      else some ((r1.1 : ℚ) + (r3.1 : ℚ) / ((10 : ℚ) ^ r3.2.1), r3.2.2)
  | _ => if r1.2.1 = 0 then none else some ((r1.1 : ℚ), r1.2.2)

/-- Apply an optional exponent part `[eE] [+-] digits`; the whole rest must
be consumed. -/
def applyExpOpt (q : ℚ) : List Char → Option ℚ
  | [] => some q
  | c :: r =>
      if c = 'e' ∨ c = 'E' then
        match r with
        | '+' :: r2 =>
            let d := takeDigitsAux 0 0 r2
            if d.2.1 = 0 ∨ d.2.2 ≠ [] then none else some (q * (10 : ℚ) ^ d.1)
        | '-' :: r2 =>
            let d := takeDigitsAux 0 0 r2
            if d.2.1 = 0 ∨ d.2.2 ≠ [] then none else some (q / (10 : ℚ) ^ d.1)
        | _ =>
            let d := takeDigitsAux 0 0 r
            if d.2.1 = 0 ∨ d.2.2 ≠ [] then none else some (q * (10 : ℚ) ^ d.1)
      else none

/-- Strip leading and trailing whitespace from a character list. -/
def pyStrip (cs : List Char) : List Char :=
  ((cs.dropWhile Char.isWhitespace).reverse.dropWhile Char.isWhitespace).reverse

/-- Python `float(s)` on a string: strip surrounding whitespace, optional
sign, then either inf/infinity/nan (case-insensitive) or a decimal literal
with optional exponent (digit-group underscores are not modelled; no theorem
below touches such a literal).  Finite values are exact rationals. -/
def parsePyFloat (s : String) : Option PFloat :=
  let cs := pyStrip s.toList
  let signed : Bool × List Char :=
    match cs with
    | '+' :: r => (false, r)
    | '-' :: r => (true, r)
    | _ => (false, cs)
  let neg := signed.1
  let body := signed.2
  let lower := body.map Char.toLower
  if lower = ['i', 'n', 'f'] ∨ lower = ['i', 'n', 'f', 'i', 'n', 'i', 't', 'y'] then
    some (.inf (!neg))
  else if lower = ['n', 'a', 'n'] then
    some .nan
  else
    match parseUnsigned body with
    | some qr =>
        match applyExpOpt qr.1 qr.2 with
        | some q => some (.fin (if neg then -q else q))
        | none => none
    | none => none

/-- Python `float(x)` on a decoded JSON value: numbers pass through,
booleans convert to 1.0/0.0, strings are parsed as float literals
(ValueError when they do not parse), and null/lists/dicts raise TypeError. -/
def pyFloat : Json → Except String PFloat
  | .num q => .ok (.fin q)
  | .bool b => .ok (.fin (if b then 1 else 0))
  | .str s =>
      match parsePyFloat s with
      | some f => .ok f
      | none => .error "ValueError"
  | .null => .error "TypeError"
  | .arr _ => .error "TypeError"
  | .obj _ => .error "TypeError"

/-- The response handling of `invoke_model` (app.py lines 172-174): given
the decoded JSON response body, compute
`float(result["predictions"][0][0])`; any raised Python exception is
propagated as an error. -/
def invoke_model_extract (result : Json) : Except String PFloat := do
  let preds ← jsonGetField result "predictions"
  let row ← jsonGetIndex preds 0
  let cell ← jsonGetIndex row 0
  pyFloat cell

/-- A Python value appearing in the `output_fn` response dict. -/
inductive PyVal
  | str (s : String)
  | float (f : PFloat)
deriving DecidableEq, Repr

/-- `output_fn` from inference.py lines 31-33: build the dict
`{"label": "Pneumonia" if prediction >= 0.5 else "Normal",
"probability": prediction}` (as an ordered field list) and return it
JSON-serialized with content type "application/json". -/
def output_fn (prediction : PFloat) : List (String × PyVal) × String :=
  ([("label", .str (if pfGe prediction 0.5 then "Pneumonia" else "Normal")),
    ("probability", .float prediction)],
   "application/json")

/-- A `getD` read is the fallback or a member of the list. -/
theorem getD_eq_or_mem {α : Type} (l : List α) (n : Nat) (d : α) :
    l.getD n d = d ∨ l.getD n d ∈ l := by
  rw [List.getD_eq_getElem?_getD]
  rcases h : l[n]? with _ | a
  · left; rfl
  · right
    have := List.getElem?_mem h
    simpa using this

/-- After `convert("RGB")` of a byte-valued image every channel is a byte. -/
theorem convertRGB_bound (image : PILImage) (h : validPILImage image = true) :
    ∀ row ∈ convertRGB image, ∀ p ∈ row,
      p.1 ≤ 255 ∧ p.2.1 ≤ 255 ∧ p.2.2 ≤ 255 := by
  intro row hrow p hp
  cases image with
  | L px =>
      simp only [convertRGB, List.mem_map] at hrow
      obtain ⟨r, hr, rfl⟩ := hrow
      simp only [List.mem_map] at hp
      obtain ⟨v, hv, rfl⟩ := hp
      simp only [validPILImage, List.all_eq_true, decide_eq_true_eq] at h
      have := h r hr v hv
      show v ≤ 255 ∧ v ≤ 255 ∧ v ≤ 255
      omega
  | RGBA px =>
      simp only [convertRGB, List.mem_map] at hrow
      obtain ⟨r, hr, rfl⟩ := hrow
      simp only [List.mem_map] at hp
      obtain ⟨q, hq, rfl⟩ := hp
      simp only [validPILImage, List.all_eq_true, Bool.and_eq_true,
        decide_eq_true_eq] at h
      have := h r hr q hq
      show q.1 ≤ 255 ∧ q.2.1 ≤ 255 ∧ q.2.2.1 ≤ 255
      omega
  | P palette px =>
      simp only [convertRGB, List.mem_map] at hrow
      obtain ⟨r, hr, rfl⟩ := hrow
      simp only [List.mem_map] at hp
      obtain ⟨i, hi, rfl⟩ := hp
      simp only [validPILImage, List.all_eq_true, Bool.and_eq_true,
        decide_eq_true_eq] at h
      rcases getD_eq_or_mem palette i (0, 0, 0) with hd | hm
      · rw [hd]; simp
      · have := h _ hm
        omega
  | RGB px =>
      simp only [convertRGB] at hrow
      simp only [validPILImage, List.all_eq_true, Bool.and_eq_true,
        decide_eq_true_eq] at h
      have := h row hrow p hp
      omega

/-- Resizing a byte-valued grid gives a byte-valued grid: every output pixel
is a source pixel or the byte default. -/
theorem resizeNN_bound (g : Grid (Nat × Nat × Nat)) (newW newH : Nat)
    (h : ∀ row ∈ g, ∀ p ∈ row, p.1 ≤ 255 ∧ p.2.1 ≤ 255 ∧ p.2.2 ≤ 255) :
    ∀ row ∈ resizeNN g newW newH, ∀ p ∈ row,
      p.1 ≤ 255 ∧ p.2.1 ≤ 255 ∧ p.2.2 ≤ 255 := by
  intro row hrow p hp
  simp only [resizeNN, List.mem_map] at hrow
  obtain ⟨y, _, rfl⟩ := hrow
  simp only [List.mem_map] at hp
  obtain ⟨x, _, rfl⟩ := hp
  rcases getD_eq_or_mem (g.getD (y * g.length / newH) [])
      (x * (g.headD []).length / newW) (0, 0, 0) with hd | hm
  · rw [hd]; simp
  · rcases getD_eq_or_mem g (y * g.length / newH) [] with hd2 | hm2
    · rw [hd2] at hm; simp at hm
    · exact h _ hm2 _ hm

/-- The resized grid has `newH` rows of `newW` pixels each. -/
theorem resizeNN_shape (g : Grid (Nat × Nat × Nat)) (newW newH : Nat) :
    (resizeNN g newW newH).length = newH ∧
    ∀ row ∈ resizeNN g newW newH, row.length = newW := by
  constructor
  · simp [resizeNN]
  · intro row hrow
    simp only [resizeNN, List.mem_map] at hrow
    obtain ⟨y, _, rfl⟩ := hrow
    simp

/-- Shape of the preprocessed tensor: one batch, 224 rows, 224 pixels. -/
theorem preprocess_tensor_shape (image : PILImage) :
    (preprocess_tensor image).length = 1 ∧
    ∀ plane ∈ preprocess_tensor image, plane.length = 224 ∧
      ∀ row ∈ plane, row.length = 224 := by
  refine ⟨rfl, ?_⟩
  intro plane hplane
  have hp : plane = normalize255 (resizeNN (convertRGB image) 224 224) := by
    simpa [preprocess_tensor, IMG_SIZE] using hplane
  subst hp
  obtain ⟨hlen, hrows⟩ := resizeNN_shape (convertRGB image) 224 224
  constructor
  · simp [normalize255, hlen]
  · intro row hrow
    simp only [normalize255, List.mem_map] at hrow
    obtain ⟨r, hr, rfl⟩ := hrow
    have := hrows r hr
    simp [this]

/-- Every channel of the preprocessed tensor lies in [0, 1]. -/
theorem preprocess_tensor_bounds (image : PILImage)
    (h : validPILImage image = true) :
    ∀ plane ∈ preprocess_tensor image, ∀ row ∈ plane, ∀ p ∈ row,
      (0 ≤ p.1 ∧ p.1 ≤ 1) ∧ (0 ≤ p.2.1 ∧ p.2.1 ≤ 1) ∧ (0 ≤ p.2.2 ∧ p.2.2 ≤ 1) := by
  intro plane hplane row hrow p hp
  have hpl : plane = normalize255 (resizeNN (convertRGB image) 224 224) := by
    simpa [preprocess_tensor, IMG_SIZE] using hplane
  subst hpl
  simp only [normalize255, List.mem_map] at hrow
  obtain ⟨r, hr, rfl⟩ := hrow
  simp only [List.mem_map] at hp
  obtain ⟨b, hb, rfl⟩ := hp
  have hbyte := resizeNN_bound (convertRGB image) 224 224
    (convertRGB_bound image h) r hr b hb
  have hc : ∀ v : Nat, v ≤ 255 → 0 ≤ (v : ℚ) / 255 ∧ (v : ℚ) / 255 ≤ 1 := by
    intro v hv
    constructor
    · positivity
    · rw [div_le_one (by norm_num)]
      exact_mod_cast hv
  exact ⟨hc b.1 hbyte.1, hc b.2.1 hbyte.2.1, hc b.2.2 hbyte.2.2⟩

/-- The character-list model of `startswith` agrees with list prefixing. -/
theorem strStarts_iff : ∀ s p : List Char, strStarts s p = true ↔ p <+: s
  | _, [] => by simp [strStarts]
  | [], _ :: _ => by simp [strStarts]
  | c :: cs, p :: ps => by
      rw [List.cons_prefix_cons]
      simp only [strStarts, Bool.and_eq_true, beq_iff_eq]
      rw [strStarts_iff cs ps]
      constructor
      · rintro ⟨h1, h2⟩; exact ⟨h1.symm, h2⟩
      · rintro ⟨h1, h2⟩; exact ⟨h1.symm, h2⟩

/-- C1: the Diagnosis Mapper is total on floats and maps `p >= 0.75` to
"Pneumonia Detected", `0.5 <= p < 0.75` to "Possible Pneumonia (Moderate)",
and `p < 0.5` to "Normal"; in particular at 0.75, 0.749, 0.5, 0.499, 0.0
and 1.0 it returns the values the spec lists. -/
theorem map_probability_thresholds :
    (∀ q : ℚ, 0.75 ≤ q → map_probability (.fin q) = "Pneumonia Detected") ∧
    (∀ q : ℚ, 0.5 ≤ q → q < 0.75 →
      map_probability (.fin q) = "Possible Pneumonia (Moderate)") ∧
    (∀ q : ℚ, q < 0.5 → map_probability (.fin q) = "Normal") ∧
    map_probability (.fin 0.75) = "Pneumonia Detected" ∧
    map_probability (.fin 0.749) = "Possible Pneumonia (Moderate)" ∧
    map_probability (.fin 0.5) = "Possible Pneumonia (Moderate)" ∧
    map_probability (.fin 0.499) = "Normal" ∧
    map_probability (.fin 1.0) = "Pneumonia Detected" ∧
    map_probability (.fin 0.0) = "Normal" := by
  refine ⟨?_, ?_, ?_, by norm_num [map_probability, pfGe], by norm_num [map_probability, pfGe],
    by norm_num [map_probability, pfGe], by norm_num [map_probability, pfGe],
    by norm_num [map_probability, pfGe], by norm_num [map_probability, pfGe]⟩
  · intro q hq
    simp [map_probability, pfGe, hq]
  · intro q hq hlt
    simp [map_probability, pfGe, hq, not_le.mpr hlt]
  · intro q hq
    have h1 : ¬ (0.75 : ℚ) ≤ q := by
      intro h; exact absurd (lt_of_lt_of_le hq (by norm_num)) (not_lt.mpr h)
    simp [map_probability, pfGe, h1, not_le.mpr hq]

/-- Witness for C1: the threshold clauses applied at concrete inputs. -/
theorem map_probability_thresholds_witness :
    map_probability (.fin 0.8) = "Pneumonia Detected" ∧
    map_probability (.fin 0.6) = "Possible Pneumonia (Moderate)" ∧
    map_probability (.fin 0.1) = "Normal" :=
  ⟨map_probability_thresholds.1 0.8 (by norm_num),
   map_probability_thresholds.2.1 0.6 (by norm_num) (by norm_num),
   map_probability_thresholds.2.2.1 0.1 (by norm_num)⟩

/-- C10: on every float input - NaN, infinities, negatives, values above 1 -
the Diagnosis Mapper returns without error and its result is one of exactly
the three fixed labels; NaN (both comparisons false) maps to "Normal". -/
theorem map_probability_total :
    (∀ p : PFloat,
      map_probability p = "Pneumonia Detected" ∨
      map_probability p = "Possible Pneumonia (Moderate)" ∨
      map_probability p = "Normal") ∧
    map_probability .nan = "Normal" ∧
    map_probability (.inf false) = "Normal" ∧
    map_probability (.inf true) = "Pneumonia Detected" ∧
    map_probability (.fin (-5)) = "Normal" ∧
    map_probability (.fin 2) = "Pneumonia Detected" := by
  refine ⟨?_, by norm_num [map_probability, pfGe], by norm_num [map_probability, pfGe],
    by norm_num [map_probability, pfGe], by norm_num [map_probability, pfGe],
    by norm_num [map_probability, pfGe]⟩
  intro p
  unfold map_probability
  by_cases h1 : pfGe p 0.75 = true
  · simp [h1]
  · by_cases h2 : pfGe p 0.5 = true
    · simp [h1, h2]
    · simp [h1, h2]

/-- C2: for every decoded input image, whatever its original width, height
or channel mode (grayscale, RGBA, palette, RGB), the preprocessor tensor has
shape (1, 224, 224, 3) with every channel value in [0, 1] (each byte divided
by 255), and the serialized payload is the nested numeric JSON array of that
tensor. -/
theorem preprocess_image_shape_bounds (image : PILImage)
    (h : validPILImage image = true) :
    (preprocess_tensor image).length = 1 ∧
    (∀ plane ∈ preprocess_tensor image, plane.length = 224 ∧
      ∀ row ∈ plane, row.length = 224 ∧
        ∀ p ∈ row, (0 ≤ p.1 ∧ p.1 ≤ 1) ∧ (0 ≤ p.2.1 ∧ p.2.1 ≤ 1) ∧
          (0 ≤ p.2.2 ∧ p.2.2 ≤ 1)) ∧
    preprocess_image image = tensorToJson (preprocess_tensor image) := by
  obtain ⟨h1, hshape⟩ := preprocess_tensor_shape image
  refine ⟨h1, ?_, rfl⟩
  intro plane hplane
  obtain ⟨hpl, hrows⟩ := hshape plane hplane
  refine ⟨hpl, ?_⟩
  intro row hrow
  exact ⟨hrows row hrow, fun p hp =>
    preprocess_tensor_bounds image h plane hplane row hrow p hp⟩

/-- Witness for C2: a concrete 1x1 grayscale image is valid and the theorem
applies to it. -/
theorem preprocess_image_shape_bounds_witness :
    validPILImage (PILImage.L [[7]]) = true ∧
    (preprocess_tensor (PILImage.L [[7]])).length = 1 :=
  ⟨by decide, (preprocess_image_shape_bounds (PILImage.L [[7]]) (by decide)).1⟩

/-- C9: the model-server preprocessing and the application preprocessing are
the same transformation: for every decoded image they produce equal tensors,
of shape (1, 224, 224, 3 channels). -/
theorem preprocess_refinement :
    ∀ image : PILImage,
      _preprocess image = preprocess_tensor image ∧
      (_preprocess image).length = 1 ∧
      ∀ plane ∈ _preprocess image, plane.length = 224 ∧
        ∀ row ∈ plane, row.length = 224 := by
  intro image
  obtain ⟨h1, hshape⟩ := preprocess_tensor_shape image
  exact ⟨rfl, h1, hshape⟩

/-- C6: `input_fn` accepts exactly the content types that start with
"image/" or equal "application/x-image", and signals an invalid-input error
(producing no tensor) on every other content type. -/
theorem input_fn_content_type (request_body : PILImage) (content_type : String) :
    ((∃ t, input_fn request_body content_type = .ok t) ↔
      ("image/".toList <+: content_type.toList ∨
        content_type = "application/x-image")) ∧
    ((strStarts content_type.toList "image/".toList = false ∧
        content_type ≠ "application/x-image") →
      input_fn request_body content_type
        = .error ("Unsupported content type: " ++ content_type)) := by
  constructor
  · unfold input_fn
    by_cases hc : strStarts content_type.toList "image/".toList
        || content_type == "application/x-image"
    · simp only [hc, if_true]
      constructor
      · intro _
        rcases Bool.or_eq_true _ _ |>.mp hc with h | h
        · exact Or.inl ((strStarts_iff _ _).mp h)
        · exact Or.inr (by simpa using h)
      · intro _
        exact ⟨_preprocess request_body, rfl⟩
    · simp only [hc, if_false]
      constructor
      · rintro ⟨t, ht⟩
        exact absurd ht (by simp)
      · intro hor
        exfalso
        apply hc
        rcases hor with h | h
        · exact Bool.or_eq_true _ _ |>.mpr (Or.inl ((strStarts_iff _ _).mpr h))
        · exact Bool.or_eq_true _ _ |>.mpr (Or.inr (by simpa using h))
  · rintro ⟨h1, h2⟩
    unfold input_fn
    rw [h1, beq_eq_false_iff_ne.mpr h2]
    simp

/-- Witness for C6: an unsupported content type is rejected with the exact
error message. -/
theorem input_fn_content_type_witness :
    input_fn (PILImage.L [[0]]) "text/plain"
      = .error ("Unsupported content type: " ++ "text/plain") :=
  (input_fn_content_type (PILImage.L [[0]]) "text/plain").2 ⟨by decide, by decide⟩

/-- C8: the patient/study line renders "N/A" for an empty patient id and the
id itself otherwise. -/
theorem patientLine_na :
    patientLine "" = "Patient / Study ID: N/A" ∧
    patientLine "P123" = "Patient / Study ID: P123" ∧
    ∀ s : String, s ≠ "" → patientLine s = "Patient / Study ID: " ++ s := by
  refine ⟨rfl, rfl, ?_⟩
  intro s hs
  simp [patientLine, hs]

/-- Witness for C8: the general clause applied at a concrete non-empty id. -/
theorem patientLine_na_witness :
    ("X" : String) ≠ "" ∧ patientLine "X" = "Patient / Study ID: " ++ "X" :=
  ⟨by decide, patientLine_na.2.2 "X" (by decide)⟩

/-- Invariant of the wrapping loop: starting from a line of at most 90
characters, with every word of at most 90 characters, every flushed line and
the final line have at most 90 characters. -/
theorem wrapLoop_bound (ws : List String) : ∀ line : String,
    line.length ≤ 90 → (∀ w ∈ ws, w.length ≤ 90) →
    (∀ l ∈ (wrapLoop line ws).1, l.length ≤ 90) ∧
      (wrapLoop line ws).2.length ≤ 90 := by
  induction ws with
  | nil =>
      intro line hl _
      exact ⟨fun l hlmem => by simp [wrapLoop] at hlmem, by simpa [wrapLoop] using hl⟩
  | cons w rest ih =>
      intro line hl hws
      have hw : w.length ≤ 90 := hws w (List.mem_cons_self w rest)
      have hrest : ∀ x ∈ rest, x.length ≤ 90 :=
        fun x hx => hws x (List.mem_cons_of_mem w hx)
      by_cases hc : line.length + w.length + 1 > 90
      · simp only [wrapLoop, if_pos hc]
        obtain ⟨h1, h2⟩ := ih w hw hrest
        refine ⟨?_, h2⟩
        intro l hlmem
        rcases List.mem_cons.mp hlmem with h | h
        · exact h ▸ hl
        · exact h1 l h
      · simp only [wrapLoop, if_neg hc]
        push_neg at hc
        apply ih _ _ hrest
        have hsep : (if line = "" then "" else " ").length ≤ 1 := by
          by_cases he : line = ""
          · simp [he]
          · rw [if_neg he]
            decide
        calc (line ++ (if line = "" then "" else " ") ++ w).length
            = line.length + (if line = "" then "" else " ").length + w.length := by
              simp [String.length_append]
          _ ≤ 90 := by omega

/-- C3: for every notes string whose whitespace-delimited words each have at
most 90 characters, every line emitted by the greedy word-wrap of the Report
Builder has at most 90 characters. -/
theorem build_pdf_wrap_length (notes : String)
    (h : ∀ w ∈ pySplit notes, w.length ≤ 90) :
    ∀ ln ∈ wrapNotes notes, ln.length ≤ 90 := by
  intro ln hln
  obtain ⟨h1, h2⟩ := wrapLoop_bound (pySplit notes) "" (by simp) h
  unfold wrapNotes wrapWords at hln
  by_cases hf : (wrapLoop "" (pySplit notes)).2 = ""
  · rw [if_pos hf] at hln
    exact h1 ln hln
  · rw [if_neg hf] at hln
    rcases List.mem_append.mp hln with hm | hm
    · exact h1 ln hm
    · have : ln = (wrapLoop "" (pySplit notes)).2 := by simpa using hm
      exact this ▸ h2

/-- Witness for C3: the wrap-length bound applied to a concrete notes
string. -/
theorem build_pdf_wrap_length_witness :
    (∀ w ∈ pySplit "hello wrapped world", w.length ≤ 90) ∧
    ∀ ln ∈ wrapNotes "hello wrapped world", ln.length ≤ 90 :=
  ⟨by decide, build_pdf_wrap_length "hello wrapped world" (by decide)⟩

/-- Invariant of the note-drawing loop: starting from a cursor at or above
60, every line is drawn at a vertical position at or above 60, and a page
break is recorded exactly when the position 14 below the drawn line is
strictly below 60. -/
theorem notesLoop_bound (lines : List String) : ∀ y : ℚ, 60 ≤ y →
    ∀ pb ∈ (notesLoop y lines).1,
      60 ≤ pb.1 ∧ (pb.2 = true ↔ pb.1 - 14 < 60) := by
  induction lines with
  | nil =>
      intro y _ pb hpb
      simp [notesLoop] at hpb
  | cons l rest ih =>
      intro y hy pb hpb
      simp only [notesLoop] at hpb
      rcases List.mem_cons.mp hpb with h | h
      · subst h
        exact ⟨hy, by simp⟩
      · refine ih _ ?_ pb h
        split_ifs with hd
        · rw [A4height]
          norm_num
        · have hge : ¬ (y - 14 < 60) := by simpa using hd
          push_neg at hge
          linarith

/-- C4: while drawing wrapped note lines the cursor drops by 14 per line and
a new page starts (cursor reset to height - 60) exactly when the next
position is strictly below 60; hence no line is drawn below 60, and the
initial notes position is itself at or above 60. -/
theorem build_pdf_pagination (lines : List String) (y0 : ℚ) (h : 60 ≤ y0) :
    (∀ pb ∈ (notesLoop y0 lines).1,
      60 ≤ pb.1 ∧ (pb.2 = true ↔ pb.1 - 14 < 60)) ∧
    60 ≤ notesStartY := by
  refine ⟨notesLoop_bound lines y0 h, ?_⟩
  rw [notesStartY, A4height]
  norm_num

/-- Witness for C4: the pagination invariant applied to a concrete run. -/
theorem build_pdf_pagination_witness :
    (60 : ℚ) ≤ 100 ∧
    ∀ pb ∈ (notesLoop 100 ["first line", "second line"]).1,
      60 ≤ pb.1 ∧ (pb.2 = true ↔ pb.1 - 14 < 60) :=
  ⟨by norm_num,
   (build_pdf_pagination ["first line", "second line"] 100 (by norm_num)).1⟩

/-- C7: `output_fn` returns a JSON object with exactly the fields "label"
and "probability"; the label is "Pneumonia" when the prediction is at least
0.5 and "Normal" otherwise, and the probability field carries the prediction
unchanged; the declared content type is "application/json". -/
theorem output_fn_fields (prediction : PFloat) :
    ((output_fn prediction).1.map Prod.fst = ["label", "probability"]) ∧
    ((output_fn prediction).1.lookup "probability"
      = some (.float prediction)) ∧
    (pfGe prediction 0.5 = true →
      (output_fn prediction).1.lookup "label" = some (.str "Pneumonia")) ∧
    (pfGe prediction 0.5 = false →
      (output_fn prediction).1.lookup "label" = some (.str "Normal")) ∧
    (output_fn prediction).2 = "application/json" := by
  refine ⟨rfl, by simp [output_fn, List.lookup], ?_, ?_, rfl⟩
  · intro h
    simp [output_fn, List.lookup, h]
  · intro h
    simp [output_fn, List.lookup, h]

/-- Witness for C7: the labelling clauses applied at concrete predictions. -/
theorem output_fn_fields_witness :
    (pfGe (.fin 1) 0.5 = true ∧
      (output_fn (.fin 1)).1.lookup "label" = some (.str "Pneumonia")) ∧
    (pfGe (.fin 0) 0.5 = false ∧
      (output_fn (.fin 0)).1.lookup "label" = some (.str "Normal")) :=
  ⟨⟨by norm_num [pfGe], (output_fn_fields (.fin 1)).2.2.1 (by norm_num [pfGe])⟩,
   ⟨by norm_num [pfGe], (output_fn_fields (.fin 0)).2.2.2.1 (by norm_num [pfGe])⟩⟩

/-- C5 counterexample: the claim that every response without the shape
predictions = [[number]] makes the client fail is false: Python `float()`
converts JSON booleans and numeric strings, so these non-numeric cell values
are returned as probabilities instead of raising. -/
theorem invoke_model_nonnumeric_ok :
    invoke_model_extract (.obj [("predictions", .arr [.arr [.bool true]])])
      = .ok (.fin 1) ∧
    invoke_model_extract (.obj [("predictions", .arr [.arr [.str "0.5"]])])
      = .ok (.fin (1 / 2)) := by
  constructor
  · rfl
  · have h : invoke_model_extract
        (.obj [("predictions", .arr [.arr [.str "0.5"]])])
        = .ok (.fin ((0 : ℚ) + 5 / 10 ^ 1)) := rfl
    rw [h]
    norm_num

/-- C5 amended: the client extracts predictions[0][0] and applies `float()`:
a numeric cell is returned unchanged; a missing "predictions" key, a too
short outer or inner array, and a cell `float()` cannot convert (null,
array, object, non-numeric string) propagate an error; but JSON booleans
and numeric strings are converted and returned as values. -/
theorem invoke_model_extract_behaviour :
    (∀ q : ℚ, invoke_model_extract
        (.obj [("predictions", .arr [.arr [.num q]])]) = .ok (.fin q)) ∧
    (∀ kvs : List (String × Json), (∀ kv ∈ kvs, kv.1 ≠ "predictions") →
      invoke_model_extract (.obj kvs) = .error "KeyError") ∧
    invoke_model_extract (.obj [("predictions", .arr [])])
      = .error "IndexError" ∧
    invoke_model_extract (.obj [("predictions", .arr [.arr []])])
      = .error "IndexError" ∧
    invoke_model_extract (.obj [("predictions", .null)])
      = .error "TypeError" ∧
    invoke_model_extract (.obj [("predictions", .arr [.arr [.null]])])
      = .error "TypeError" ∧
    invoke_model_extract (.obj [("predictions", .arr [.arr [.arr [.num 1]]])])
      = .error "TypeError" ∧
    invoke_model_extract (.obj [("predictions", .arr [.arr [.obj []]])])
      = .error "TypeError" ∧
    invoke_model_extract (.obj [("predictions", .arr [.arr [.str "abc"]])])
      = .error "ValueError" ∧
    invoke_model_extract .null = .error "TypeError" := by
  refine ⟨fun q => rfl, ?_, rfl, rfl, rfl, rfl, rfl, rfl, rfl, rfl⟩
  intro kvs hk
  have hf : kvs.filter (fun kv => kv.1 == "predictions") = [] := by
    rw [List.filter_eq_nil_iff]
    intro kv hkv
    simpa using hk kv hkv
  simp [invoke_model_extract, jsonGetField, hf, Bind.bind, Except.bind]

/-- Witness for C5: the missing-key clause applied to a concrete response
object. -/
theorem invoke_model_extract_behaviour_witness :
    invoke_model_extract (.obj [("foo", Json.null)]) = .error "KeyError" :=
  invoke_model_extract_behaviour.2.1 [("foo", Json.null)] (by decide)
